import Mathlib

/-!
Shallow embedding of the MindfulMe habit-tracking application
(`app.py`, `activity_db.py`) and verification of its specification.

Modelling conventions:
- Calendar dates are integers (days). ISO `YYYY-MM-DD` strings compare
  lexicographically exactly as the underlying dates compare, so `ORDER BY
  date DESC` becomes sorting by `≥` on the integer date, and
  `today - timedelta(days=k)` becomes `today - k`.
- The SQLite store is a `Store` structure holding the `activities` and
  `habits` tables as lists of rows in insertion order; `INSERT` appends,
  `SELECT ... WHERE` filters.
- `datetime.now().date()` is passed in explicitly as a `today : ℤ`
  parameter.
- Python string operations (`lower`, `strip`, `title`) are modelled over
  ASCII, which covers every pattern the dispatcher uses.
- The `while True` loop of `calculate_streak` is modelled by a
  fuel-indexed step function `scanLoop` returning `none` when the fuel is
  exhausted before the loop breaks; termination is proved separately.
-/

/-- ASCII model of the whitespace class used by the regex `\s` and by
`str.strip()`. -/
def isWs (c : Char) : Bool :=
  c == ' ' || c == '\t' || c == '\n' || c == '\r' || c == '\x0b' || c == '\x0c'

/-- ASCII lower-casing of one character, modelling `str.lower()`. -/
def asciiLower (c : Char) : Char :=
  if 'A' ≤ c && c ≤ 'Z' then Char.ofNat (c.toNat + 32) else c

/-- ASCII upper-casing of one character. -/
def asciiUpper (c : Char) : Char :=
  if 'a' ≤ c && c ≤ 'z' then Char.ofNat (c.toNat - 32) else c

/-- Whether a character is an ASCII letter (a cased character for
`str.title()`). -/
def isAsciiAlpha (c : Char) : Bool :=
  ('a' ≤ c && c ≤ 'z') || ('A' ≤ c && c ≤ 'Z')

/-- Strip characters satisfying `p` from both ends of a character list,
modelling `str.strip()` and `str.strip(chars)`. -/
def pyStripP (p : Char → Bool) (cs : List Char) : List Char :=
  (((cs.dropWhile p).reverse.dropWhile p).reverse)

/-- Helper of `pyTitle`: the flag records whether the previous character
was cased. -/
def pyTitleAux : Bool → List Char → List Char
  | _, [] => []
  | prevCased, c :: cs =>
    if isAsciiAlpha c then
      (if prevCased then asciiLower c else asciiUpper c) :: pyTitleAux true cs
    else
      c :: pyTitleAux false cs

/-- ASCII model of `str.title()`: the first letter of every run of
letters is upper-cased, the rest lower-cased. -/
def pyTitle (s : String) : String :=
  String.mk (pyTitleAux false s.data)

/-- Model of `str.lower().strip()` applied to the chat input, as a
character list. -/
def normalizeInput (s : String) : List Char :=
  pyStripP isWs (s.data.map asciiLower)

/-! ### Data model: the two SQLite tables -/

/-- One row of the `activities` table (the surrogate `id` is never read
by the application logic and is omitted). -/
structure Activity where
  name : String
  date : ℤ
  category : String
  status : String
deriving DecidableEq, Repr

/-- One row of the `habits` table. -/
structure Habit where
  name : String
  frequency : String
deriving DecidableEq, Repr

/-- The whole persistent store: both tables, rows in insertion order. -/
structure Store where
  activities : List Activity
  habits : List Habit
deriving DecidableEq, Repr

/-- The freshly initialised database of `activity_db.init_db`. -/
def emptyStore : Store := ⟨[], []⟩

/-- Embedding of `ORDER BY date DESC` on the `activities` table. -/
def sortByDateDesc (l : List Activity) : List Activity :=
  l.insertionSort (fun a b => b.date ≤ a.date)

/-! ### calculate_streak -/

/-- The `while True` loop of `calculate_streak`, fuel-indexed.  Branches
mirror the source: a logged `check_date` increments the streak and steps
one day back; each of the three non-logged branches (`more than 365 days
back`, `before today`, catch-all `else`) breaks, returning the streak
accumulated so far.  `none` means the fuel ran out before a break. -/
def scanLoop (logged : Finset ℤ) (today : ℤ) : ℕ → ℤ → ℕ → Option ℕ
  | 0, _, _ => none
  | fuel + 1, check_date, current_streak =>
    if check_date ∈ logged then
      scanLoop logged today fuel (check_date - 1) (current_streak + 1)
    else if check_date < today - 365 then some current_streak
    else if check_date < today then some current_streak
    else some current_streak

/-- `calculate_streak(habit_name)` with explicit `today` and fuel: fetch
the rows whose name equals `habit_name.title()` sorted by date
descending, return 0 when there are none, otherwise build the set of
logged dates, seed the streak with 1 exactly when today is logged, and
run the backward scan from yesterday. -/
def calculate_streakF (acts : List Activity) (today : ℤ) (habit_name : String)
    (fuel : ℕ) : Option ℕ :=
  let logs := sortByDateDesc (acts.filter (fun a => a.name == pyTitle habit_name))
  if logs = [] then some 0
  else
    let logged_dates := (logs.map (fun a => a.date)).toFinset
    let current_streak := if today ∈ logged_dates then 1 else 0
    scanLoop logged_dates today fuel (today - 1) current_streak

/-- The set of logged dates `calculate_streak` scans for a habit name. -/
def loggedDates (acts : List Activity) (habit_name : String) : Finset ℤ :=
  ((sortByDateDesc (acts.filter (fun a => a.name == pyTitle habit_name))).map
    (fun a => a.date)).toFinset

/-- Total version of `calculate_streak`: run the loop with enough fuel
(one more than the table size always suffices, as proved below). -/
def calculate_streak (acts : List Activity) (today : ℤ) (habit_name : String) : ℕ :=
  (calculate_streakF acts today habit_name (acts.length + 1)).getD 0

/-! ### User-facing message text

The original source file stores its emoji as mojibake (the UTF-8 bytes
of each emoji re-decoded as cp1252); the exact code points of the source
are reproduced here via escapes. -/

/-- Message of `log_activity` when a row for the same name and today
already exists. -/
def alreadyLoggedMsg (name : String) : String :=
  "Activity \x27**" ++ name ++ "**\x27 was already logged today. I\x27ve noted it, but no duplicate record was created."

/-- Success message of `log_activity` (before the optional streak alert). -/
def loggedMsg (name : String) : String :=
  "Activity \x27**" ++ name ++ "**\x27 logged for today. Well done! ðŸŽ‰"

/-- Streak-alert suffix appended by `log_activity` when the streak
exceeds 1. -/
def streakAlertMsg (name : String) (streak : ℕ) : String :=
  "<br>ðŸ”¥ **Streak Alert!** Your current streak for " ++ name ++ " is **" ++ toString streak ++ "** days!"

/-- Validation message of `add_habit` for names shorter than 3 characters. -/
def habitTooShortMsg : String :=
  "Habit names should be descriptive. Please use at least 3 characters."

/-- Success message of `add_habit`; note it hardcodes the text
\x27daily\x27 whatever frequency was stored. -/
def habitAddedMsg (name : String) : String :=
  "Habit \x27**" ++ name ++ "**\x27 added with a \x27daily\x27 frequency. I\x27ll keep track! ðŸ—“ï¸"

/-- Message of `add_habit` when the UNIQUE constraint on habit names is
violated. -/
def habitExistsMsg (name : String) : String :=
  "Habit \x27**" ++ name ++ "**\x27 is already in your list. Try a different name."

/-- Message of `show_detailed_habits` when no habits exist. -/
def noHabitsMsg : String :=
  "You don\x27t have any habits set up yet. Try \x27**add habit [name]**\x27."

/-- Message of the missed-habit analysis when no daily habits exist. -/
def noDailyHabitsMsg : String :=
  "You haven\x27t set up any daily habits yet. Try adding one with \x27**add habit [name]**\x27!"

/-- All-clear message of the missed-habit analysis. -/
def allClearMsg : String :=
  "âœ… **All Clear!** You haven\x27t missed any of your daily habits in the last week!"

/-- Fixed greeting response of the dispatcher. -/
def greetMsg : String :=
  "Hello! I\x27m **MindfulMe v2.0**, your Advanced Activity Analyzer. I track habits, calculate streaks, and validate your data. Type \x27**help**\x27 for commands or \x27**export data**\x27 to download your logs."

/-- Default help response of the dispatcher. -/
def helpMsg : String :=
  "I\x27m MindfulMe, here to help you build great habits!<br>**Enhanced Commands:**<br>1. **Log [activity name]** (e.g., \x27log 1 hour of study\x27)<br>2. **Add habit [habit name]** (e.g., \x27add habit drink 8 glasses of water\x27)<br>3. **Show habits** (Shows your habits and **streaks**!)<br>4. **Check missed** (Analyzes the last week)<br>5. **Export data** (Downloads your full log as a CSV file)"

/-! ### Activity and habit management -/

/-- `log_activity(name)`: duplicate pre-check on the pair
`(name, today)`, insert of the new row with category `general` and
status `completed`, then the streak computation for the response. -/
def log_activity (s : Store) (today : ℤ) (name : String) : Store × String :=
  let is_duplicate := s.activities.filter (fun a => a.name == name && a.date == today)
  if is_duplicate = [] then
    let s2 : Store := { s with
      activities := s.activities ++ [⟨name, today, "general", "completed"⟩] }
    let streak := calculate_streak s2.activities today name
    (s2, loggedMsg name ++ (if 1 < streak then streakAlertMsg name streak else ""))
  else
    (s, alreadyLoggedMsg name)

/-- `add_habit(name, frequency="daily")`: length validation, insert, and
translation of the UNIQUE-name violation into a friendly message. -/
def add_habit (s : Store) (name : String) (frequency : String) : Store × String :=
  if name.length < 3 then
    (s, habitTooShortMsg)
  else if s.habits.any (fun h => h.name == name) then
    (s, habitExistsMsg name)
  else
    ({ s with habits := s.habits ++ [⟨name, frequency⟩] }, habitAddedMsg name)

/-- One line of the `show_detailed_habits` report. -/
def habitReportLine (s : Store) (today : ℤ) (h : Habit) : String :=
  let streak := calculate_streak s.activities today h.name
  "- **" ++ h.name ++ "** (" ++ h.frequency ++ ") | Current Streak: **" ++ toString streak ++ "** days " ++ (if 1 < streak then "ðŸ”¥" else "") ++ "<br>"

/-- `show_detailed_habits()`: every habit with its stored frequency and
freshly computed streak. -/
def show_detailed_habits (s : Store) (today : ℤ) : String :=
  if s.habits = [] then noHabitsMsg
  else
    s.habits.foldl (fun report h => report ++ habitReportLine s today h)
      "**Your current tracked habits and progress:**<br>"

/-! ### CSV export -/

/-- One data line of the CSV export (comma-joined, no escaping). -/
def activityLine (a : Activity) : String :=
  a.name ++ "," ++ toString a.date ++ "," ++ a.category ++ "," ++ a.status

/-- The CSV header line. -/
def csvHeader : String := "Activity,Date,Category,Status"

/-- `export_data_to_csv()`: `None` when there are no rows, otherwise the
header line followed by one line per activity row ordered by date
descending (the in-memory `StringIO` buffer is modelled as the list of
lines written to it). -/
def export_data_to_csv (s : Store) : Option (List String) :=
  let logs := sortByDateDesc s.activities
  if logs = [] then none
  else some (csvHeader :: logs.map activityLine)

/-! ### Missed-habit analysis (inlined in the dispatcher in the source) -/

/-- The missed `(habit name, day)` pairs the analysis loop finds:
habits-major, then the 7 previous days in order `today-1 .. today-7`. -/
def missedPairs (s : Store) (today : ℤ) : List (String × ℤ) :=
  (s.habits.filter (fun h => h.frequency == "daily")).flatMap (fun h =>
    (List.range' 1 7).filterMap (fun i : ℕ =>
      if s.activities.filter
          (fun a => a.name == h.name && a.date == today - (i : ℤ)) = [] then
        some (h.name, today - (i : ℤ))
      else none))

/-- One report line for a missed pair. -/
def missedLineChars (p : String × ℤ) : List Char :=
  ("- Missed **\x27" ++ p.1 ++ "\x27** on " ++ toString p.2 ++ ".\n").data

/-- Render of the missed report: header plus one line per missed pair,
then `.strip(\x27n-escape\x27)` and `.replace` of newlines by `<br>`. -/
def replaceNlBr : List Char → List Char
  | [] => []
  | c :: cs =>
    if c = '\n' then '<' :: 'b' :: 'r' :: '>' :: replaceNlBr cs
    else c :: replaceNlBr cs

/-- The missed report text as returned to the user. -/
def renderMissedReport (ps : List (String × ℤ)) : String :=
  String.mk (replaceNlBr (pyStripP (fun c => c == '\n')
    ("**Analysis of Missed Daily Habits (Last 7 Days):**\n".data
      ++ (ps.map missedLineChars).flatten)))

/-- The missed-habit analysis branch of `chatbot_response`. -/
def missedAnalysis (s : Store) (today : ℤ) : String :=
  if s.habits.filter (fun h => h.frequency == "daily") = [] then noDailyHabitsMsg
  else if (missedPairs s today).length = 0 then allClearMsg
  else renderMissedReport (missedPairs s today)

/-! ### The rule-based dispatcher

The six regular expressions of `chatbot_response` use only literal
alternatives, the class `\s+`, and a trailing greedy group `(.+)`.  They
are embedded as follows: an alternative is a sequence of tokens (literal
or `\s+`); since in every such sequence each `\s+` is followed by a
literal starting with a non-whitespace character, greedy matching with
no backtracking is exact for the match tests.  For the two patterns that
end in `\s+(.+)`, the greedy/backtracking behaviour of `re.search` is
reproduced exactly: the `\s+` run is extended as far as possible while
still leaving at least one non-newline character for `(.+)`, and `(.+)`
then takes every following character up to the next newline. -/

/-- A token of an embedded pattern alternative. -/
inductive RTok where
  | lit : List Char → RTok
  | ws : RTok

/-- Match a token sequence at the head of `cs` (no capture). -/
def matchToksAt : List RTok → List Char → Bool
  | [], _ => true
  | .lit l :: ts, cs => l.isPrefixOf cs && matchToksAt ts (cs.drop l.length)
  | .ws :: ts, cs =>
    match cs with
    | [] => false
    | c :: rest => isWs c && matchToksAt ts (rest.dropWhile isWs)

/-- `re.search` for a captureless token sequence: try every start
position. -/
def searchToks (ts : List RTok) : List Char → Bool
  | [] => matchToksAt ts []
  | c :: cs => matchToksAt ts (c :: cs) || searchToks ts cs

/-- Match the greedy group `(.+)` at the current position: at least one
character, up to the next newline. -/
def dotPlusAt : List Char → Option (List Char)
  | [] => none
  | c :: cs =>
    if c = '\n' then none
    else some (c :: cs.takeWhile (fun d => !(d == '\n')))

/-- Match `\s*(.+)` at the current position, extending the whitespace
run greedily and backtracking into `(.+)` when needed. -/
def wsCaptureAux : List Char → Option (List Char)
  | [] => none
  | c :: cs =>
    if isWs c then
      match wsCaptureAux cs with
      | some g => some g
      | none => dotPlusAt (c :: cs)
    else dotPlusAt (c :: cs)

/-- Match `\s+(.+)` at the current position. -/
def matchWsPlusCapture : List Char → Option (List Char)
  | [] => none
  | c :: cs => if isWs c then wsCaptureAux cs else none

/-- Match the pattern of intent 2 at the current position, returning
group 1. -/
def matchLogAt (cs : List Char) : Option (List Char) :=
  if "log".data.isPrefixOf cs then matchWsPlusCapture (cs.drop 3) else none

/-- Match the pattern of intent 3 at the current position, returning
group 1.  The inner `\s+` is followed by the literal `habit`, which
starts with a non-whitespace character, so it deterministically extends
to the end of the whitespace run. -/
def matchAddHabitAt (cs : List Char) : Option (List Char) :=
  if "add".data.isPrefixOf cs then
    match cs.drop 3 with
    | [] => none
    | c :: rest =>
      if isWs c then
        let rest2 := rest.dropWhile isWs
        if "habit".data.isPrefixOf rest2 then matchWsPlusCapture (rest2.drop 5)
        else none
      else none
  else none

/-- `re.search` for a capturing matcher: try every start position,
leftmost match wins. -/
def searchCapture (f : List Char → Option (List Char)) : List Char → Option (List Char)
  | [] => f []
  | c :: cs =>
    match f (c :: cs) with
    | some g => some g
    | none => searchCapture f cs

/-- Intent 1 test: `export|download\s+data|save\s+logs`. -/
def exportTest (t : List Char) : Bool :=
  searchToks [.lit "export".data] t
    || searchToks [.lit "download".data, .ws, .lit "data".data] t
    || searchToks [.lit "save".data, .ws, .lit "logs".data] t

/-- Intent 4 test: `check\s+missed|analyze|report|show\s+missed`. -/
def missedTest (t : List Char) : Bool :=
  searchToks [.lit "check".data, .ws, .lit "missed".data] t
    || searchToks [.lit "analyze".data] t
    || searchToks [.lit "report".data] t
    || searchToks [.lit "show".data, .ws, .lit "missed".data] t

/-- Intent 5 test: `show\s+habits|what\s+are\s+my\s+habits|show\s+streaks`. -/
def showTest (t : List Char) : Bool :=
  searchToks [.lit "show".data, .ws, .lit "habits".data] t
    || searchToks [.lit "what".data, .ws, .lit "are".data, .ws, .lit "my".data,
        .ws, .lit "habits".data] t
    || searchToks [.lit "show".data, .ws, .lit "streaks".data] t

/-- Intent 6 test: `hi|hello|hey`. -/
def greetTest (t : List Char) : Bool :=
  searchToks [.lit "hi".data] t
    || searchToks [.lit "hello".data] t
    || searchToks [.lit "hey".data] t

/-- `chatbot_response(user_input)`: lower-case and strip the input, then
run the strictly ordered pattern checks with first-match-wins.  The
returned pair is the store after the handled intent and the response
text. -/
def chatbot_response (s : Store) (today : ℤ) (user_input : String) : Store × String :=
  let text := normalizeInput user_input
  if exportTest text then (s, "export_request")
  else
    match searchCapture matchLogAt text with
    | some g => log_activity s today (pyTitle (String.mk (pyStripP isWs g)))
    | none =>
      match searchCapture matchAddHabitAt text with
      | some g => add_habit s (pyTitle (String.mk (pyStripP isWs g))) "daily"
      | none =>
        if missedTest text then (s, missedAnalysis s today)
        else if showTest text then (s, show_detailed_habits s today)
        else if greetTest text then (s, greetMsg)
        else (s, helpMsg)

/-! ### Operation sequences over the store -/

/-- One sequential operation of the system, with the calendar day on
which it runs. -/
inductive Op where
  | logAct : ℤ → String → Op
  | addHab : String → String → Op
  | showHabits : ℤ → Op
  | missed : ℤ → Op
  | exportCsv : Op

/-- Apply one operation to the store.  `show_detailed_habits`, the
missed-habit analysis and the export read the store and return text
only, so the store passes through them unchanged. -/
def applyOp (s : Store) : Op → Store
  | .logAct today name => (log_activity s today name).1
  | .addHab name freq => (add_habit s name freq).1
  | .showHabits today => let _ := show_detailed_habits s today; s
  | .missed today => let _ := missedAnalysis s today; s
  | .exportCsv => let _ := export_data_to_csv s; s

/-- The store reached from the empty database by a sequence of
operations. -/
def runOps (ops : List Op) : Store :=
  ops.foldl applyOp emptyStore

/-- The application-level uniqueness invariant: at most one activities
row per `(name, date)` pair. -/
def UniquePairs (l : List Activity) : Prop :=
  l.Pairwise (fun a b => ¬(a.name = b.name ∧ a.date = b.date))

/-- Number of activities rows carrying a given `(name, date)` pair. -/
def countPair (l : List Activity) (name : String) (d : ℤ) : ℕ :=
  (l.filter (fun a => a.name == name && a.date == d)).length

/-! ### Concrete fixtures used by witnesses and counterexamples -/

/-- Concrete rows for the first streak test vector. -/
def c1ActsA : List Activity :=
  [⟨"Run", 0, "general", "completed"⟩, ⟨"Run", -1, "general", "completed"⟩,
   ⟨"Run", -2, "general", "completed"⟩]

/-- Concrete rows for the second streak test vector. -/
def c1ActsB : List Activity :=
  [⟨"Run", -1, "general", "completed"⟩, ⟨"Run", -2, "general", "completed"⟩]

/-- Concrete rows for the fourth streak test vector. -/
def c1ActsD : List Activity :=
  [⟨"Run", 0, "general", "completed"⟩, ⟨"Run", -2, "general", "completed"⟩]

/-- 367 consecutive logged days ending yesterday, for the C2
counterexample. -/
def c2Acts : List Activity :=
  (List.range 367).map (fun i : ℕ => ⟨"Run", -1 - (i : ℤ), "general", "completed"⟩)

/-- Store with one Gym row logged on day 0, for the C3 witness. -/
def c3Store : Store := ⟨[⟨"Gym", 0, "general", "completed"⟩], []⟩

/-- Store with two activity rows on days 3 and 5, for the C7 witness. -/
def c7Store : Store :=
  ⟨[⟨"Walk", 3, "general", "completed"⟩, ⟨"Read", 5, "general", "completed"⟩], []⟩

/-- Store with one daily habit and no activities, for the C8 witness. -/
def c8Store : Store := ⟨[], [⟨"Yoga", "daily"⟩]⟩

/-! ### Lemmas about the backward scan -/

/-- On a date that is not logged, every branch of the loop body breaks. -/
theorem scanLoop_break {logged : Finset ℤ} {today cd : ℤ} {fuel acc : ℕ}
    (h : cd ∉ logged) :
    scanLoop logged today (fuel + 1) cd acc = some acc := by
  simp [scanLoop, h]

/-- On a logged date, the loop increments the streak and steps back one
day. -/
theorem scanLoop_step {logged : Finset ℤ} {today cd : ℤ} {fuel acc : ℕ}
    (h : cd ∈ logged) :
    scanLoop logged today (fuel + 1) cd acc =
      scanLoop logged today fuel (cd - 1) (acc + 1) := by
  simp [scanLoop, h]

/-- With fuel exceeding the number of logged dates at or before the
start date, the scan breaks and returns the accumulator plus the length
of the consecutive logged run starting at the start date and going
backward; the first date past the run is unlogged. -/
theorem scanLoop_correct (logged : Finset ℤ) (today : ℤ) :
    ∀ (fuel : ℕ) (cd : ℤ) (acc : ℕ),
      (logged.filter (fun d => d ≤ cd)).card < fuel →
      ∃ n : ℕ, scanLoop logged today fuel cd acc = some (acc + n) ∧
        (∀ k : ℕ, k < n → (cd - k) ∈ logged) ∧ (cd - (n : ℤ)) ∉ logged := by
  intro fuel
  induction fuel with
  | zero => intro cd acc h; exact (Nat.not_lt_zero _ h).elim
  | succ fuel ih =>
    intro cd acc h
    by_cases hmem : cd ∈ logged
    · have hcard : (logged.filter (fun d => d ≤ cd - 1)).card < fuel := by
        have hins : insert cd (logged.filter (fun d => d ≤ cd - 1)) ⊆
            logged.filter (fun d => d ≤ cd) := by
          intro d hd
          rw [Finset.mem_insert] at hd
          rw [Finset.mem_filter]
          rcases hd with rfl | hd
          · exact ⟨hmem, le_refl d⟩
          · rw [Finset.mem_filter] at hd
            exact ⟨hd.1, by omega⟩
        have hnotmem : cd ∉ logged.filter (fun d => d ≤ cd - 1) := by
          rw [Finset.mem_filter]
          push_neg
          intro
          omega
        have hcardins := Finset.card_insert_of_not_mem hnotmem
        have hle := Finset.card_le_card hins
        omega
      obtain ⟨n, heq, hrun, hstop⟩ := ih (cd - 1) (acc + 1) hcard
      refine ⟨n + 1, ?_, ?_, ?_⟩
      · rw [scanLoop_step hmem, heq]
        congr 1
        omega
      · intro k hk
        match k with
        | 0 => simpa using hmem
        | j + 1 =>
          have hj : j < n := by omega
          have := hrun j hj
          have harith : cd - ((j : ℤ) + 1) = cd - 1 - j := by ring
          rw [Nat.cast_add, Nat.cast_one, harith]
          exact this
      · have harith : cd - ((n : ℤ) + 1) = cd - 1 - n := by ring
        rw [Nat.cast_add, Nat.cast_one, harith]
        exact hstop
    · refine ⟨0, ?_, by omega, by simpa using hmem⟩
      rw [scanLoop_break hmem]
      simp

/-- Two run lengths with the same cut-off predicate are equal. -/
theorem run_length_unique {P : ℕ → Prop} {n m : ℕ}
    (h1 : ∀ k, k < n → P k) (h2 : ¬P n) (h3 : ∀ k, k < m → P k) (h4 : ¬P m) :
    n = m := by
  rcases Nat.lt_trichotomy n m with h | h | h
  · exact absurd (h3 n h) h2
  · exact h
  · exact absurd (h1 m h) h4

/-- The fuel bound used throughout: the logged-date set is no larger
than the activities table. -/
theorem loggedDates_card_le (acts : List Activity) (habit_name : String) :
    (loggedDates acts habit_name).card ≤ acts.length := by
  unfold loggedDates
  calc _ ≤ ((sortByDateDesc (acts.filter
        (fun a => a.name == pyTitle habit_name))).map (fun a => a.date)).length :=
        List.toFinset_card_le _
    _ = (sortByDateDesc (acts.filter (fun a => a.name == pyTitle habit_name))).length :=
        List.length_map _ _
    _ = (acts.filter (fun a => a.name == pyTitle habit_name)).length :=
        List.length_insertionSort _ _
    _ ≤ acts.length := List.length_filter_le _ _

/-- Unfolding of `calculate_streak` in the non-empty case. -/
theorem calculate_streak_eq_scan {acts : List Activity} {today : ℤ} {habit_name : String}
    (h : sortByDateDesc (acts.filter (fun a => a.name == pyTitle habit_name)) ≠ []) :
    calculate_streak acts today habit_name =
      (scanLoop (loggedDates acts habit_name) today (acts.length + 1) (today - 1)
        (if today ∈ loggedDates acts habit_name then 1 else 0)).getD 0 := by
  simp only [calculate_streak, calculate_streakF, loggedDates, if_neg h]

/-- Full characterisation of `calculate_streak`: the result is the seed
(1 exactly when today is logged) plus the length of the consecutive
logged run ending at yesterday, and the run is cut exactly at the first
unlogged date — the 365-day condition never cuts it. -/
theorem streak_char (acts : List Activity) (today : ℤ) (habit_name : String) :
    ∃ n : ℕ,
      (∀ k : ℕ, k < n → (today - 1 - k) ∈ loggedDates acts habit_name) ∧
      (today - 1 - (n : ℤ)) ∉ loggedDates acts habit_name ∧
      calculate_streak acts today habit_name =
        (if today ∈ loggedDates acts habit_name then 1 else 0) + n := by
  by_cases hlogs :
      sortByDateDesc (acts.filter (fun a => a.name == pyTitle habit_name)) = []
  · refine ⟨0, by omega, ?_, ?_⟩
    · simp [loggedDates, hlogs]
    · simp [calculate_streak, calculate_streakF, loggedDates, hlogs]
  · have hcard : ((loggedDates acts habit_name).filter
        (fun d => d ≤ today - 1)).card < acts.length + 1 := by
      have h1 := Finset.card_filter_le (loggedDates acts habit_name)
        (fun d => d ≤ today - 1)
      have h2 := loggedDates_card_le acts habit_name
      omega
    obtain ⟨n, heq, hrun, hstop⟩ := scanLoop_correct (loggedDates acts habit_name)
      today (acts.length + 1) (today - 1)
      (if today ∈ loggedDates acts habit_name then 1 else 0) hcard
    refine ⟨n, hrun, hstop, ?_⟩
    rw [calculate_streak_eq_scan hlogs, heq]
    rfl

/-- Membership in the scanned date set, stated over the raw table. -/
theorem mem_loggedDates {acts : List Activity} {habit_name : String} {d : ℤ} :
    d ∈ loggedDates acts habit_name ↔
      ∃ a ∈ acts, a.name = pyTitle habit_name ∧ a.date = d := by
  unfold loggedDates sortByDateDesc
  rw [List.mem_toFinset, List.mem_map]
  constructor
  · rintro ⟨a, ha, rfl⟩
    rw [(List.perm_insertionSort _ _).mem_iff, List.mem_filter] at ha
    exact ⟨a, ha.1, by simpa using ha.2, rfl⟩
  · rintro ⟨a, ha, hn, rfl⟩
    refine ⟨a, ?_, rfl⟩
    rw [(List.perm_insertionSort _ _).mem_iff, List.mem_filter]
    exact ⟨ha, by simpa using hn⟩

/-- C1: for every habit name, `calculate_streak` returns the test-vector
values of the specification: logged dates today, today-1, today-2 give
streak 3; today-1 and today-2 only give 2; no logged rows give 0; and
today with today-2 but not today-1 give 1. -/
theorem calculate_streak_test_vectors (habit_name : String) (today : ℤ)
    (acts : List Activity) :
    (loggedDates acts habit_name = {today, today - 1, today - 2} →
      calculate_streak acts today habit_name = 3) ∧
    (loggedDates acts habit_name = {today - 1, today - 2} →
      calculate_streak acts today habit_name = 2) ∧
    (acts.filter (fun a => a.name == pyTitle habit_name) = [] →
      calculate_streak acts today habit_name = 0) ∧
    (loggedDates acts habit_name = {today, today - 2} →
      calculate_streak acts today habit_name = 1) := by
  refine ⟨?_, ?_, ?_, ?_⟩
  · intro hD
    obtain ⟨n, hrun, hstop, heq⟩ := streak_char acts today habit_name
    rw [hD] at hrun hstop heq
    simp only [Finset.mem_insert, Finset.mem_singleton] at hrun hstop heq
    have hn : n = 2 := by
      rcases Nat.lt_trichotomy n 2 with h | h | h
      · interval_cases n
        · push_cast at hstop; omega
        · push_cast at hstop; omega
      · exact h
      · have := hrun 2 h
        push_cast at this
        omega
    subst hn
    rw [heq]
    simp
  · intro hD
    obtain ⟨n, hrun, hstop, heq⟩ := streak_char acts today habit_name
    rw [hD] at hrun hstop heq
    simp only [Finset.mem_insert, Finset.mem_singleton] at hrun hstop heq
    have hn : n = 2 := by
      rcases Nat.lt_trichotomy n 2 with h | h | h
      · interval_cases n
        · push_cast at hstop; omega
        · push_cast at hstop; omega
      · exact h
      · have := hrun 2 h
        push_cast at this
        omega
    subst hn
    rw [heq, if_neg (by omega : ¬(today = today - 1 ∨ today = today - 2))]
  · intro hF
    have hlogs : sortByDateDesc (acts.filter
        (fun a => a.name == pyTitle habit_name)) = [] := by
      rw [hF]
      rfl
    simp [calculate_streak, calculate_streakF, hlogs]
  · intro hD
    obtain ⟨n, hrun, hstop, heq⟩ := streak_char acts today habit_name
    rw [hD] at hrun hstop heq
    simp only [Finset.mem_insert, Finset.mem_singleton] at hrun hstop heq
    have hn : n = 0 := by
      rcases Nat.eq_zero_or_pos n with h | h
      · exact h
      · have := hrun 0 h
        push_cast at this
        omega
    subst hn
    rw [heq]
    simp

/-- Witness for C1 at concrete stores and day 0. -/
theorem calculate_streak_test_vectors_witness :
    calculate_streak c1ActsA 0 "run" = 3 ∧
    calculate_streak c1ActsB 0 "run" = 2 ∧
    calculate_streak [] 0 "run" = 0 ∧
    calculate_streak c1ActsD 0 "run" = 1 :=
  ⟨(calculate_streak_test_vectors "run" 0 c1ActsA).1 (by decide),
   (calculate_streak_test_vectors "run" 0 c1ActsB).2.1 (by decide),
   (calculate_streak_test_vectors "run" 0 []).2.2.1 (by decide),
   (calculate_streak_test_vectors "run" 0 c1ActsD).2.2.2 (by decide)⟩

/-- C2 (amended): the backward scan stops exactly on the first unlogged
date — every non-logged branch of the loop breaks, so the 365-day
condition never cuts a fully-logged run and the streak is the seed plus
the whole consecutive run ending at yesterday, however long. -/
theorem calculate_streak_run_characterisation (acts : List Activity) (today : ℤ)
    (habit_name : String) :
    ∃ n : ℕ,
      (∀ k : ℕ, k < n → (today - 1 - k) ∈ loggedDates acts habit_name) ∧
      (today - 1 - (n : ℤ)) ∉ loggedDates acts habit_name ∧
      calculate_streak acts today habit_name =
        (if today ∈ loggedDates acts habit_name then 1 else 0) + n :=
  streak_char acts today habit_name

/-- C2 counterexample: with every day from yesterday back through
today-367 logged, the scan is never stopped by the 365-day bound and the
returned streak is 367, counting dates more than 365 days in the past
(a streak respecting the claimed bound could never exceed 366). -/
theorem calculate_streak_exceeds_365 :
    calculate_streak c2Acts 0 "run" = 367 ∧
      366 < calculate_streak c2Acts 0 "run" := by
  have hmemAct : ∀ a : Activity, a ∈ c2Acts ↔
      ∃ i : ℕ, i < 367 ∧ a = ⟨"Run", -1 - (i : ℤ), "general", "completed"⟩ := by
    intro a
    unfold c2Acts
    rw [List.mem_map]
    constructor
    · rintro ⟨i, hi, rfl⟩
      exact ⟨i, List.mem_range.mp hi, rfl⟩
    · rintro ⟨i, hi, rfl⟩
      exact ⟨i, List.mem_range.mpr hi, rfl⟩
  have hchar : ∀ d : ℤ, d ∈ loggedDates c2Acts "run" ↔
      ∃ i : ℕ, i < 367 ∧ (-1 - (i : ℤ)) = d := by
    intro d
    rw [mem_loggedDates]
    constructor
    · rintro ⟨a, ha, hname, hdate⟩
      rw [hmemAct] at ha
      obtain ⟨i, hi, rfl⟩ := ha
      exact ⟨i, hi, hdate⟩
    · rintro ⟨i, hi, rfl⟩
      exact ⟨⟨"Run", -1 - i, "general", "completed"⟩,
        (hmemAct _).mpr ⟨i, hi, rfl⟩, (by decide : ("Run" : String) = pyTitle "run"), rfl⟩
  obtain ⟨n, hrun, hstop, heq⟩ := streak_char c2Acts 0 "run"
  have hn : n = 367 := by
    refine run_length_unique hrun hstop ?_ ?_
    · intro k hk
      rw [hchar]
      exact ⟨k, hk, by push_cast; ring⟩
    · rw [hchar]
      rintro ⟨i, hi, hieq⟩
      push_cast at hieq
      omega
  subst hn
  have hzero : (0 : ℤ) ∉ loggedDates c2Acts "run" := by
    rw [hchar]
    rintro ⟨i, hi, hieq⟩
    omega
  rw [heq, if_neg hzero]
  omega

/-- Unfolding of `calculate_streakF` in the non-empty case. -/
theorem calculate_streakF_eq_scan {acts : List Activity} {today : ℤ}
    {habit_name : String} (fuel : ℕ)
    (h : sortByDateDesc (acts.filter (fun a => a.name == pyTitle habit_name)) ≠ []) :
    calculate_streakF acts today habit_name fuel =
      scanLoop (loggedDates acts habit_name) today fuel (today - 1)
        (if today ∈ loggedDates acts habit_name then 1 else 0) := by
  simp only [calculate_streakF, loggedDates, if_neg h]

/-- C9: the backward-scanning loop of `calculate_streak` always reaches
a break in finitely many iterations: any fuel beyond the size of the
activities table yields a result, and always the same one. -/
theorem calculate_streakF_terminates (acts : List Activity) (today : ℤ)
    (habit_name : String) (fuel : ℕ) (hfuel : acts.length < fuel) :
    (calculate_streakF acts today habit_name fuel).isSome = true ∧
      calculate_streakF acts today habit_name fuel =
        calculate_streakF acts today habit_name (acts.length + 1) := by
  by_cases hlogs :
      sortByDateDesc (acts.filter (fun a => a.name == pyTitle habit_name)) = []
  · exact ⟨by simp [calculate_streakF, hlogs], by simp [calculate_streakF, hlogs]⟩
  · have hb : ∀ f : ℕ, acts.length < f →
        ((loggedDates acts habit_name).filter (fun d => d ≤ today - 1)).card < f := by
      intro f hf
      have h1 := Finset.card_filter_le (loggedDates acts habit_name)
        (fun d => d ≤ today - 1)
      have h2 := loggedDates_card_le acts habit_name
      omega
    obtain ⟨n1, he1, hr1, hs1⟩ := scanLoop_correct (loggedDates acts habit_name)
      today fuel (today - 1)
      (if today ∈ loggedDates acts habit_name then 1 else 0) (hb fuel hfuel)
    obtain ⟨n2, he2, hr2, hs2⟩ := scanLoop_correct (loggedDates acts habit_name)
      today (acts.length + 1) (today - 1)
      (if today ∈ loggedDates acts habit_name then 1 else 0) (hb _ (by omega))
    have hnn : n1 = n2 := run_length_unique hr1 hs1 hr2 hs2
    subst hnn
    rw [calculate_streakF_eq_scan fuel hlogs,
      calculate_streakF_eq_scan (acts.length + 1) hlogs, he1, he2]
    exact ⟨rfl, rfl⟩

/-- Witness for C9 at a concrete table and fuel. -/
theorem calculate_streakF_terminates_witness :
    ([] : List Activity).length < 5 ∧
      ((calculate_streakF [] 0 "run" 5).isSome = true ∧
        calculate_streakF [] 0 "run" 5 =
          calculate_streakF [] 0 "run" (([] : List Activity).length + 1)) :=
  ⟨by decide, calculate_streakF_terminates [] 0 "run" 5 (by decide)⟩

/-! ### Duplicate prevention in log_activity -/

/-- A matching row exists exactly when the duplicate-check query is
non-empty. -/
theorem exists_pair_iff_filter_ne_nil {l : List Activity} {name : String} {d : ℤ} :
    (∃ a ∈ l, a.name = name ∧ a.date = d) ↔
      l.filter (fun a => a.name == name && a.date == d) ≠ [] := by
  rw [Ne, List.filter_eq_nil_iff]
  push_neg
  simp [Bool.and_eq_true, beq_iff_eq]

/-- When the duplicate check finds a row, `log_activity` only returns
the notice. -/
theorem log_activity_of_dup {s : Store} {today : ℤ} {name : String}
    (hne : s.activities.filter (fun a => a.name == name && a.date == today) ≠ []) :
    log_activity s today name = (s, alreadyLoggedMsg name) := by
  simp only [log_activity, if_neg hne]

/-- When the duplicate check is empty, `log_activity` appends the new
row. -/
theorem log_activity_of_new {s : Store} {today : ℤ} {name : String}
    (hF : s.activities.filter (fun a => a.name == name && a.date == today) = []) :
    (log_activity s today name).1.activities =
      s.activities ++ [⟨name, today, "general", "completed"⟩] := by
  simp only [log_activity, if_pos hF]

/-- C3: when a row with the same name and date exists, `log_activity`
returns the no-duplicate notice and leaves the store unchanged; two
sequential calls with the same name on the same day leave exactly one
row for that pair. -/
theorem log_activity_duplicate_check (s : Store) (today : ℤ) (name : String) :
    ((∃ a ∈ s.activities, a.name = name ∧ a.date = today) →
      log_activity s today name = (s, alreadyLoggedMsg name)) ∧
    (countPair s.activities name today ≤ 1 →
      countPair
        ((log_activity ((log_activity s today name).1) today name).1).activities
        name today = 1) := by
  constructor
  · intro h
    exact log_activity_of_dup (exists_pair_iff_filter_ne_nil.mp h)
  · intro hle
    by_cases hF : s.activities.filter (fun a => a.name == name && a.date == today) = []
    · have h1 := log_activity_of_new hF
      have hx : countPair (s.activities ++ [⟨name, today, "general", "completed"⟩])
          name today = 1 := by
        unfold countPair
        rw [List.filter_append, hF]
        simp
      have hne2 : (log_activity s today name).1.activities.filter
          (fun a => a.name == name && a.date == today) ≠ [] := by
        rw [h1, List.filter_append, hF]
        simp
      have h2 : ((log_activity ((log_activity s today name).1) today name).1).activities
          = (log_activity s today name).1.activities := by
        rw [log_activity_of_dup hne2]
      rw [h2, h1]
      exact hx
    · have h1 := log_activity_of_dup hF
      have e1 : (log_activity s today name).1 = s := by rw [h1]
      have e2 : ((log_activity ((log_activity s today name).1) today name).1) = s := by
        rw [e1, h1]
      rw [e2]
      have hpos := List.length_pos.mpr hF
      unfold countPair at hle ⊢
      omega

/-- Witness for C3 at a concrete store already holding the row. -/
theorem log_activity_duplicate_check_witness :
    log_activity c3Store 0 "Gym" = (c3Store, alreadyLoggedMsg "Gym") ∧
    countPair ((log_activity ((log_activity c3Store 0 "Gym").1) 0 "Gym").1).activities
      "Gym" 0 = 1 :=
  ⟨(log_activity_duplicate_check c3Store 0 "Gym").1 (by decide),
   (log_activity_duplicate_check c3Store 0 "Gym").2 (by decide)⟩

/-! ### The uniqueness invariant over operation sequences -/

/-- `add_habit` never touches the activities table. -/
theorem add_habit_activities_eq (s : Store) (n f : String) :
    (add_habit s n f).1.activities = s.activities := by
  unfold add_habit
  split_ifs <;> rfl

/-- `log_activity` preserves the at-most-one-row-per-pair invariant:
the insert only happens after the duplicate check came back empty. -/
theorem log_activity_preserves_unique {s : Store} (today : ℤ) (name : String)
    (h : UniquePairs s.activities) :
    UniquePairs ((log_activity s today name).1).activities := by
  by_cases hF : s.activities.filter (fun a => a.name == name && a.date == today) = []
  · simp only [log_activity, if_pos hF]
    rw [UniquePairs, List.pairwise_append]
    refine ⟨h, List.pairwise_singleton _ _, ?_⟩
    intro a ha b hb
    rw [List.mem_singleton] at hb
    subst hb
    have hnot := List.filter_eq_nil_iff.mp hF a ha
    simp only [Bool.and_eq_true, beq_iff_eq] at hnot
    rintro ⟨hn, hd⟩
    exact hnot ⟨hn, hd⟩
  · simp only [log_activity, if_neg hF]
    exact h

/-- Every single operation preserves the invariant. -/
theorem applyOp_preserves_unique (s : Store) (op : Op) (h : UniquePairs s.activities) :
    UniquePairs (applyOp s op).activities := by
  cases op with
  | logAct t n => exact log_activity_preserves_unique t n h
  | addHab n f =>
    show UniquePairs ((add_habit s n f).1).activities
    rw [add_habit_activities_eq]
    exact h
  | showHabits t => exact h
  | missed t => exact h
  | exportCsv => exact h

/-- C4: in every store reachable from the empty database by a finite
sequence of operations, the activities table has at most one row per
name and date pair. -/
theorem activities_at_most_one_per_pair (ops : List Op) :
    UniquePairs (runOps ops).activities := by
  suffices h : ∀ init : Store, UniquePairs init.activities →
      UniquePairs (ops.foldl applyOp init).activities from
    h emptyStore List.Pairwise.nil
  induction ops with
  | nil => intro init h; exact h
  | cons op rest ih =>
    intro init h
    exact ih _ (applyOp_preserves_unique init op h)

/-! ### add_habit and the hardcoded frequency text -/

/-- A pattern found in a suffix is found in the whole list. -/
theorem searchToks_append_right (ts : List RTok) (xs ys : List Char)
    (h : searchToks ts ys = true) : searchToks ts (xs ++ ys) = true := by
  induction xs with
  | nil => simpa using h
  | cons x xs ih =>
    show searchToks ts (x :: (xs ++ ys)) = true
    simp only [searchToks, Bool.or_eq_true]
    exact Or.inr ih

/-- C5: a successful `add_habit` stores the caller-supplied frequency in
the habits row, yet its success message is independent of that value and
contains the quoted text daily. -/
theorem add_habit_frequency_discrepancy (s : Store) (name frequency : String)
    (hlen : 3 ≤ name.length) (hnew : ∀ h ∈ s.habits, h.name ≠ name) :
    add_habit s name frequency =
      ({ s with habits := s.habits ++ [⟨name, frequency⟩] }, habitAddedMsg name) ∧
    (∀ f2 : String, (add_habit s name f2).2 = habitAddedMsg name) ∧
    searchToks [.lit "\x27daily\x27".data] (habitAddedMsg name).data = true := by
  have hnot3 : ¬(name.length < 3) := by omega
  have hany : s.habits.any (fun h => h.name == name) = false := by
    rw [List.any_eq_false]
    intro h hh
    simpa [beq_iff_eq] using hnew h hh
  refine ⟨?_, ?_, ?_⟩
  · simp [add_habit, hnot3, hany]
  · intro f2
    simp [add_habit, hnot3, hany]
  · unfold habitAddedMsg
    rw [String.data_append, String.data_append, List.append_assoc]
    apply searchToks_append_right
    apply searchToks_append_right
    decide

/-- Witness for C5 at a concrete store and a non-daily frequency. -/
theorem add_habit_frequency_discrepancy_witness :
    add_habit emptyStore "Water" "weekly" =
      ({ emptyStore with habits := emptyStore.habits ++ [⟨"Water", "weekly"⟩] },
        habitAddedMsg "Water") ∧
    (∀ f2 : String, (add_habit emptyStore "Water" f2).2 = habitAddedMsg "Water") ∧
    searchToks [.lit "\x27daily\x27".data] (habitAddedMsg "Water").data = true :=
  add_habit_frequency_discrepancy emptyStore "Water" "weekly" (by decide) (by decide)

/-! ### Dispatcher ordering -/

/-- C6: the dispatcher checks its patterns in a fixed order with
first-match-wins, and the export check comes before the log check: any
input whose normalized text matches the export pattern yields the export
sentinel, whatever else it matches; in particular the log pattern does
match the text `log and export my data`, yet the response is the export
sentinel. -/
theorem export_precedes_log (s : Store) (today : ℤ) (input : String) :
    (exportTest (normalizeInput input) = true →
      chatbot_response s today input = (s, "export_request")) ∧
    (searchCapture matchLogAt (normalizeInput "log and export my data")
        = some "and export my data".data ∧
      chatbot_response s today "log and export my data" = (s, "export_request")) := by
  refine ⟨?_, ?_, ?_⟩
  · intro h
    simp [chatbot_response, h]
  · decide
  · have h : exportTest (normalizeInput "log and export my data") = true := by decide
    simp [chatbot_response, h]

/-- Witness for C6 at a concrete input matching the export pattern. -/
theorem export_precedes_log_witness :
    exportTest (normalizeInput "please export everything") = true ∧
      chatbot_response emptyStore 0 "please export everything" =
        (emptyStore, "export_request") :=
  ⟨by decide,
    (export_precedes_log emptyStore 0 "please export everything").1 (by decide)⟩

/-- C10: any input whose normalized text contains hi, hello or hey as a
substring anywhere — also inside a longer word — and matches none of the
five earlier patterns gets the fixed greeting, not the default help
text. -/
theorem greeting_substring_match (s : Store) (today : ℤ) (input : String)
    (h1 : exportTest (normalizeInput input) = false)
    (h2 : searchCapture matchLogAt (normalizeInput input) = none)
    (h3 : searchCapture matchAddHabitAt (normalizeInput input) = none)
    (h4 : missedTest (normalizeInput input) = false)
    (h5 : showTest (normalizeInput input) = false)
    (h6 : greetTest (normalizeInput input) = true) :
    chatbot_response s today input = (s, greetMsg) := by
  simp [chatbot_response, h1, h2, h3, h4, h5, h6]

/-- Witness for C10: the word sushi contains hi and matches no earlier
pattern. -/
theorem greeting_substring_match_witness :
    chatbot_response emptyStore 0 "sushi" = (emptyStore, greetMsg) :=
  greeting_substring_match emptyStore 0 "sushi" (by decide) (by decide) (by decide)
    (by decide) (by decide) (by decide)

/-! ### CSV export -/

/-- Sorting returns the empty list only for the empty table. -/
theorem sortByDateDesc_eq_nil_iff {l : List Activity} :
    sortByDateDesc l = [] ↔ l = [] := by
  constructor
  · intro h
    have hlen : (sortByDateDesc l).length = l.length := List.length_insertionSort _ _
    rw [h] at hlen
    exact List.length_eq_zero.mp hlen.symm
  · intro h
    rw [h]
    rfl

/-- C7: the export returns no result exactly on an empty activities
table; otherwise it returns the header line followed by one line per
row, the rows ordered by date descending. -/
theorem export_csv_shape (s : Store) :
    (export_data_to_csv s = none ↔ s.activities = []) ∧
    (∀ lines : List String, export_data_to_csv s = some lines →
      lines.length = s.activities.length + 1 ∧
      lines.head? = some csvHeader ∧
      ∃ rows : List Activity,
        lines = csvHeader :: rows.map activityLine ∧
        List.Perm rows s.activities ∧
        rows.Pairwise (fun a b => b.date ≤ a.date)) := by
  constructor
  · constructor
    · intro h
      by_cases hl : sortByDateDesc s.activities = []
      · exact sortByDateDesc_eq_nil_iff.mp hl
      · unfold export_data_to_csv at h
        rw [if_neg hl] at h
        exact absurd h (by simp)
    · intro h
      unfold export_data_to_csv
      rw [if_pos (sortByDateDesc_eq_nil_iff.mpr h)]
  · intro lines hl
    by_cases hnil : sortByDateDesc s.activities = []
    · unfold export_data_to_csv at hl
      rw [if_pos hnil] at hl
      exact absurd hl (by simp)
    · unfold export_data_to_csv at hl
      rw [if_neg hnil] at hl
      have hlines : lines = csvHeader :: (sortByDateDesc s.activities).map activityLine :=
        (Option.some.inj hl).symm
      refine ⟨?_, ?_, sortByDateDesc s.activities, hlines, ?_, ?_⟩
      · rw [hlines]
        simp [List.length_map, List.length_insertionSort, sortByDateDesc]
      · rw [hlines]
        rfl
      · exact List.perm_insertionSort _ _
      · letI : IsTotal Activity (fun a b => b.date ≤ a.date) :=
          ⟨fun a b => le_total b.date a.date⟩
        letI : IsTrans Activity (fun a b => b.date ≤ a.date) :=
          ⟨fun a b c h1 h2 => le_trans h2 h1⟩
        exact List.sorted_insertionSort _ _

/-- Witness for C7 at a concrete two-row store. -/
theorem export_csv_shape_witness :
    (export_data_to_csv c7Store = none ↔ c7Store.activities = []) ∧
    ([csvHeader, activityLine ⟨"Read", 5, "general", "completed"⟩,
        activityLine ⟨"Walk", 3, "general", "completed"⟩].length
          = c7Store.activities.length + 1 ∧
      [csvHeader, activityLine ⟨"Read", 5, "general", "completed"⟩,
        activityLine ⟨"Walk", 3, "general", "completed"⟩].head? = some csvHeader ∧
      ∃ rows : List Activity,
        [csvHeader, activityLine ⟨"Read", 5, "general", "completed"⟩,
          activityLine ⟨"Walk", 3, "general", "completed"⟩]
            = csvHeader :: rows.map activityLine ∧
        List.Perm rows c7Store.activities ∧
        rows.Pairwise (fun a b => b.date ≤ a.date)) :=
  ⟨(export_csv_shape c7Store).1, (export_csv_shape c7Store).2 _ (by decide)⟩

/-! ### Missed-habit analysis -/

/-- Dropping a prefix never crosses a final element that fails the
predicate. -/
theorem dropWhile_append_last {p : Char → Bool} {c : Char} (hc : p c = false) :
    ∀ l : List Char, ∃ t, List.dropWhile p (l ++ [c]) = t ++ [c] := by
  intro l
  induction l with
  | nil => exact ⟨[], by simp [List.dropWhile_cons, hc]⟩
  | cons x xs ih =>
    by_cases hx : p x = true
    · obtain ⟨t, ht⟩ := ih
      exact ⟨t, by simp [List.dropWhile_cons, hx, ht]⟩
    · exact ⟨x :: xs, by simp [List.dropWhile_cons, hx]⟩

/-- Stripping preserves a head character that the predicate keeps. -/
theorem pyStripP_head {p : Char → Bool} {c : Char} (hc : p c = false) (cs : List Char) :
    ∃ ds, pyStripP p (c :: cs) = c :: ds := by
  unfold pyStripP
  rw [List.dropWhile_cons, hc]
  simp only [Bool.false_eq_true, if_false]
  rw [List.reverse_cons]
  obtain ⟨t, ht⟩ := dropWhile_append_last hc cs.reverse
  rw [ht, List.reverse_append]
  exact ⟨t.reverse, by simp⟩

/-- The newline replacement keeps a non-newline head character. -/
theorem replaceNlBr_cons {c : Char} (h : ¬c = '\n') (cs : List Char) :
    replaceNlBr (c :: cs) = c :: replaceNlBr cs := by
  simp [replaceNlBr, h]

/-- The rendered missed report always starts with an asterisk. -/
theorem renderMissedReport_data_head (ps : List (String × ℤ)) :
    ((renderMissedReport ps).data).head? = some '*' := by
  show (replaceNlBr (pyStripP (fun c => c == '\n')
      ("**Analysis of Missed Daily Habits (Last 7 Days):**\n".data
        ++ (ps.map missedLineChars).flatten))).head? = some '*'
  have hd : "**Analysis of Missed Daily Habits (Last 7 Days):**\n".data
      = '*' :: "*Analysis of Missed Daily Habits (Last 7 Days):**\n".data := by decide
  rw [hd, List.cons_append]
  obtain ⟨ds, hds⟩ := pyStripP_head (p := fun c => c == '\n') (c := '*') (by decide) _
  rw [hds, replaceNlBr_cons (by decide)]
  rfl

/-- The rendered missed report is never the all-clear message. -/
theorem renderMissedReport_ne_allClear (ps : List (String × ℤ)) :
    renderMissedReport ps ≠ allClearMsg := by
  intro h
  have h1 := renderMissedReport_data_head ps
  rw [h] at h1
  have h2 : allClearMsg.data.head? = some 'â' := by decide
  rw [h2] at h1
  exact absurd h1 (by decide)

/-- C8: with at least one daily habit, the analysis reports exactly the
pairs of a daily habit and one of the previous 7 days with no matching
activity row, and it answers all-clear exactly when there is no such
pair. -/
theorem missed_analysis_correct (s : Store) (today : ℤ)
    (hdaily : s.habits.filter (fun h => h.frequency == "daily") ≠ []) :
    (∀ p : String × ℤ, p ∈ missedPairs s today ↔
      ∃ h ∈ s.habits, h.frequency = "daily" ∧ p.1 = h.name ∧
        ∃ i : ℕ, 1 ≤ i ∧ i ≤ 7 ∧ p.2 = today - (i : ℤ) ∧
          ¬∃ a ∈ s.activities, a.name = h.name ∧ a.date = today - (i : ℤ)) ∧
    (missedAnalysis s today = allClearMsg ↔ missedPairs s today = []) := by
  constructor
  · intro p
    unfold missedPairs
    rw [List.mem_flatMap]
    constructor
    · rintro ⟨h, hh, hp⟩
      rw [List.mem_filter] at hh
      rw [List.mem_filterMap] at hp
      obtain ⟨i, hi, heq⟩ := hp
      rw [List.mem_range'] at hi
      obtain ⟨j, hj7, hij⟩ := hi
      split at heq
      · next hcond =>
        have hp2 := Option.some.inj heq
        refine ⟨h, hh.1, by simpa [beq_iff_eq] using hh.2, by rw [← hp2], i,
          by omega, by omega, by rw [← hp2], ?_⟩
        rw [exists_pair_iff_filter_ne_nil]
        simp [hcond]
      · exact absurd heq (by simp)
    · rintro ⟨h, hh, hfreq, hp1, i, hi1, hi7, hp2, hnoact⟩
      refine ⟨h, List.mem_filter.mpr ⟨hh, by simp [beq_iff_eq, hfreq]⟩, ?_⟩
      rw [List.mem_filterMap]
      refine ⟨i, List.mem_range'.mpr ⟨i - 1, by omega, by omega⟩, ?_⟩
      have hcond : s.activities.filter
          (fun a => a.name == h.name && a.date == today - (i : ℤ)) = [] := by
        by_contra hne
        exact hnoact (exists_pair_iff_filter_ne_nil.mpr hne)
      rw [if_pos hcond]
      exact (congrArg some (Prod.ext hp1 hp2)).symm
  · unfold missedAnalysis
    rw [if_neg hdaily]
    by_cases hlen : (missedPairs s today).length = 0
    · rw [if_pos hlen]
      simp [List.length_eq_zero.mp hlen]
    · rw [if_neg hlen]
      constructor
      · intro h
        exact absurd h (renderMissedReport_ne_allClear _)
      · intro h
        rw [h] at hlen
        simp at hlen

/-- Witness for C8 at a concrete store with one daily habit. -/
theorem missed_analysis_correct_witness :
    missedAnalysis c8Store 0 = allClearMsg ↔ missedPairs c8Store 0 = [] :=
  (missed_analysis_correct c8Store 0 (by decide)).2

/-- Witness for the amended C2 at a concrete store and day 0. -/
theorem calculate_streak_run_characterisation_witness :
    ∃ n : ℕ,
      (∀ k : ℕ, k < n → ((0 : ℤ) - 1 - k) ∈ loggedDates c1ActsA "run") ∧
      ((0 : ℤ) - 1 - (n : ℤ)) ∉ loggedDates c1ActsA "run" ∧
      calculate_streak c1ActsA 0 "run" =
        (if (0 : ℤ) ∈ loggedDates c1ActsA "run" then 1 else 0) + n :=
  calculate_streak_run_characterisation c1ActsA 0 "run"
